import Mathlib

/-!
Verification of the WAV audio ingestion and decoding pipeline of
`native/whisper/whisper_wrapper.cpp` (functions `get_file_extension`, `to_lower`
and `read_audio_file`).

The byte stream of the input file is modelled as a `List Nat`; every function
that assembles a multi-byte little-endian word reduces each byte modulo 256,
exactly as reading an actual byte from disk would bound it.  The two chunk
scanning loops of `read_audio_file` (`while (file.tellg() < file_size - 8)`)
are modelled by structurally recursive functions on the remaining suffix of the
stream, with an explicit fuel argument initialised to the length of the suffix
(each loop iteration consumes at least the 8 header bytes, so this fuel always
suffices; `findFmtAux_congr` below makes the independence from the fuel
precise).  The loop condition `tellg() < file_size - 8` is equivalent to
"strictly more than 8 bytes remain", which is how it appears here.

Outcomes are modelled by `DecodeResult`:
* `ok samples warnings` — the function returns a non-diagnostic result; the
  samples are the `float` values pushed at line 202 (`sample / 32768.0f`).
  Because every signed 16-bit integer divided by the power of two `32768.0f`
  is exactly representable in IEEE single precision, the samples are modelled
  exactly as rationals.  `warnings` records the diagnostic prints of
  lines 153–159 that accompany a successful decode.
* `err e` — one distinguished error constructor per early `return {}` site of
  `read_audio_file` (each site prints a distinct message).
* `crash k` — undefined behaviour: `divByZero` for the unguarded
  `data_size / (bits_per_sample / 8)` at line 191 when `bits_per_sample < 8`,
  and `readPastEnd` for reads that run past the end of the stream (a failed
  `std::ifstream::read` leaves variables unset and puts the stream in a fail
  state; no claim exercises these inputs).
-/

namespace VoiceBridge

/-- ASCII bytes of the outer `"RIFF"` tag (line 73 of the source). -/
def riffTag : List Nat := [82, 73, 70, 70]

/-- ASCII bytes of the `"WAVE"` tag (line 78). -/
def waveTag : List Nat := [87, 65, 86, 69]

/-- ASCII bytes of the `"fmt "` chunk id (line 100). -/
def fmtTag : List Nat := [102, 109, 116, 32]

/-- ASCII bytes of the `"data"` chunk id (lines 120 and 174). -/
def dataTag : List Nat := [100, 97, 116, 97]

/-- The byte at index `i` of a stream, reduced to an actual byte value. -/
def byteAt (l : List Nat) (i : Nat) : Nat := l.getD i 0 % 256

/-- Little-endian unsigned 16-bit word starting at index `i`. -/
def le16 (l : List Nat) (i : Nat) : Nat := byteAt l i + 256 * byteAt l (i + 1)

/-- Little-endian unsigned 32-bit word starting at index `i`. -/
def le32 (l : List Nat) (i : Nat) : Nat :=
  byteAt l i + 256 * byteAt l (i + 1) + 65536 * byteAt l (i + 2) +
    16777216 * byteAt l (i + 3)

/-- Little-endian signed 16-bit integer starting at index `i`
(the `int16_t sample` read at line 200). -/
def s16 (l : List Nat) (i : Nat) : Int :=
  if le16 l i < 32768 then (le16 l i : Int) else (le16 l i : Int) - 65536

/-- The fields read from the first `fmt ` chunk (lines 84–111). -/
structure FmtInfo where
  audio_format : Nat
  num_channels : Nat
  sample_rate : Nat
  bits_per_sample : Nat
deriving DecidableEq, Repr

/-- The diagnostic warnings printed at lines 153–159 on a decode that
continues past validation. -/
inductive Warning
  | sampleRateMismatch
  | bitDepthMismatch
deriving DecidableEq, Repr

/-- One constructor per early `return {}` site of `read_audio_file`; each site
prints a distinct diagnostic message. -/
inductive DecodeError
  | unsupportedExtension
  | invalidRiff
  | invalidWave
  | dataBeforeFmt
  | noFmtChunk
  | unsupportedAudioFormat
  | unsupportedChannels
  | noDataChunk
  | unsupportedBitDepth
deriving DecidableEq, Repr

/-- Undefined behaviour of the C++ source: the unguarded integer division at
line 191, and reads past the end of the stream. -/
inductive CrashKind
  | divByZero
  | readPastEnd
deriving DecidableEq, Repr

/-- Outcome of `read_audio_file`. -/
inductive DecodeResult
  | ok (samples : List ℚ) (warnings : List Warning)
  | err (e : DecodeError)
  | crash (k : CrashKind)
deriving DecidableEq, Repr

/-- Outcome of the first chunk-scanning loop (lines 90–129). -/
inductive FmtScan
  | found (f : FmtInfo) (rest : List Nat)
  | dataBefore
  | exhausted
  | fault
deriving DecidableEq, Repr

/-- Outcome of the second chunk-scanning loop (lines 165–183). -/
inductive DataScan
  | found (size : Nat) (rest : List Nat)
  | exhausted
deriving DecidableEq, Repr

/-- First scanning loop (lines 90–129), on the suffix of the stream after the
12-byte envelope.  Reads 8-byte chunk headers while more than 8 bytes remain.
A `fmt ` chunk ends the loop with the fields of lines 104–111; its declared
size minus 16 is computed in `uint32_t`/`size_t` arithmetic (line 114), hence
the wrap-around `(size + 2^32 - 16) % 2^32` in the final skip.  A `data` chunk
seen first is fatal (line 122); other chunks are skipped by declared size
(line 127). -/
def findFmtAux : Nat → List Nat → FmtScan
  | 0, _ => .exhausted
  | fuel + 1, rem =>
    if 8 < rem.length then
      if (rem.take 4).map (· % 256) = fmtTag then
        if (rem.drop 8).length < 16 then .fault
        else
          .found
            { audio_format := le16 (rem.drop 8) 0
              num_channels := le16 (rem.drop 8) 2
              sample_rate := le32 (rem.drop 8) 4
              bits_per_sample := le16 (rem.drop 8) 14 }
            (((rem.drop 8).drop 16).drop ((le32 rem 4 + 4294967280) % 4294967296))
      else if (rem.take 4).map (· % 256) = dataTag then .dataBefore
      else findFmtAux fuel (rem.drop (8 + le32 rem 4))
    else .exhausted

/-- Second scanning loop (lines 165–183): find the `data` chunk, skipping
everything else by declared size. -/
def findDataAux : Nat → List Nat → DataScan
  | 0, _ => .exhausted
  | fuel + 1, rem =>
    if 8 < rem.length then
      if (rem.take 4).map (· % 256) = dataTag then .found (le32 rem 4) (rem.drop 8)
      else findDataAux fuel (rem.drop (8 + le32 rem 4))
    else .exhausted

/-- The first scanning loop, entered with sufficient fuel. -/
def findFmt (rem : List Nat) : FmtScan := findFmtAux rem.length rem

/-- The second scanning loop, entered with sufficient fuel. -/
def findData (rem : List Nat) : DataScan := findDataAux rem.length rem

/-- The warnings printed at lines 153–159. -/
def warningsOf (f : FmtInfo) : List Warning :=
  (if f.sample_rate ≠ 16000 then [Warning.sampleRateMismatch] else []) ++
    (if f.bits_per_sample ≠ 16 then [Warning.bitDepthMismatch] else [])

/-- The sample loop of lines 198–203: `n` consecutive little-endian signed
16-bit integers, each divided by `32768.0f` (exact in single precision). -/
def pcm16Samples (rem : List Nat) (n : Nat) : List ℚ :=
  (List.range n).map fun i => (s16 rem (2 * i) : ℚ) / 32768

/-- Lines 190–207: the sample-count division (line 191, unguarded — division
by zero when `bits_per_sample / 8 = 0`), then the `bits_per_sample == 16`
decode path or the unsupported-bit-depth rejection (line 205). -/
def decodeData (f : FmtInfo) (data_size : Nat) (rem : List Nat) : DecodeResult :=
  if f.bits_per_sample / 8 = 0 then .crash .divByZero
  else
    if f.bits_per_sample = 16 then
      if rem.length < 2 * (data_size / (f.bits_per_sample / 8)) then .crash .readPastEnd
      else .ok (pcm16Samples rem (data_size / (f.bits_per_sample / 8))) (warningsOf f)
    else .err .unsupportedBitDepth

/-- Lines 143–207: parameter validation after the `fmt ` chunk was found,
then the data-chunk scan and the sample decode. -/
def afterFmt (f : FmtInfo) (rest : List Nat) : DecodeResult :=
  if f.audio_format ≠ 1 then .err .unsupportedAudioFormat
  else if f.num_channels ≠ 1 then .err .unsupportedChannels
  else
    match findData rest with
    | .exhausted => .err .noDataChunk
    | .found data_size body => decodeData f data_size body

/-- Lines 84–207: everything after the 12-byte envelope. -/
def scanChunks (rem : List Nat) : DecodeResult :=
  match findFmt rem with
  | .dataBefore => .err .dataBeforeFmt
  | .exhausted => .err .noFmtChunk
  | .fault => .crash .readPastEnd
  | .found f rest => afterFmt f rest

/-- Lines 69–207 of `read_audio_file`: the byte-level decode, from the
RIFF/WAVE envelope check onwards (the spec's Container Reader + PCM Decoder). -/
def parseWav (bytes : List Nat) : DecodeResult :=
  if bytes.length < 12 then .crash .readPastEnd
  else if (bytes.take 4).map (· % 256) ≠ riffTag then .err .invalidRiff
  else if ((bytes.drop 8).take 4).map (· % 256) ≠ waveTag then .err .invalidWave
  else scanChunks (bytes.drop 12)

/-- ASCII lowercasing of one character, as `::tolower` behaves in the C
locale (only `A`–`Z` are mapped). -/
def lowerChar (c : Char) : Char :=
  if 'A' ≤ c ∧ c ≤ 'Z' then Char.ofNat (c.toNat + 32) else c

/-- `to_lower` (lines 12–16). -/
def to_lower (s : String) : String := ⟨s.data.map lowerChar⟩

/-- The characters after the last `'.'` of the name, or `none` when the name
contains no `'.'` (`find_last_of` at line 20). -/
def afterLastDot : List Char → Option (List Char)
  | [] => none
  | c :: rest =>
    match afterLastDot rest with
    | some e => some e
    | none => if c = '.' then some rest else none

/-- `get_file_extension` (lines 19–25): the lowercased substring after the
last `'.'`, or `""` when there is no dot. -/
def get_file_extension (filename : String) : String :=
  match afterLastDot filename.data with
  | none => ""
  | some ext => to_lower ⟨ext⟩

/-- `read_audio_file` (lines 47–211) on a file name and the file's bytes:
the extension gate of lines 61–67, then the byte-level decode. -/
def read_audio_file (filename : String) (bytes : List Nat) : DecodeResult :=
  if get_file_extension filename ≠ "wav" then .err .unsupportedExtension
  else parseWav bytes

/-- The spec's `InvalidContainer` error covers both outer-tag mismatch sites
(lines 73–81). -/
def isInvalidContainer (r : DecodeResult) : Prop :=
  r = .err .invalidRiff ∨ r = .err .invalidWave

/-! ## Serialized well-formed WAV files

To quantify over "well-formed WAV inputs" we serialize a structured
description of a RIFF/WAVE file into its byte stream and feed it to
`parseWav`.  The serializer is an independent, source-faithful inverse of the
reads performed by `read_audio_file`. -/

/-- Little-endian serialization of an unsigned 16-bit field. -/
def le16bytes (n : Nat) : List Nat := [n % 256, n / 256 % 256]

/-- Little-endian serialization of an unsigned 32-bit field. -/
def le32bytes (n : Nat) : List Nat :=
  [n % 256, n / 256 % 256, n / 65536 % 256, n / 16777216 % 256]

/-- A chunk of the container: 4-byte tag, declared 32-bit size, body. -/
structure Chunk where
  tag : List Nat
  declared : Nat
  body : List Nat
deriving DecidableEq, Repr

/-- Serialization of a chunk: tag, little-endian size, body. -/
def Chunk.serialize (c : Chunk) : List Nat := c.tag ++ (le32bytes c.declared ++ c.body)

/-- A chunk is well formed when its tag is four actual bytes and its declared
size is its body's length (so skipping it by declared size lands exactly after
it) and fits in 32 bits. -/
def Chunk.wf (c : Chunk) : Prop :=
  c.tag.length = 4 ∧ (∀ b ∈ c.tag, b < 256) ∧ c.declared = c.body.length ∧
    c.declared < 4294967296

instance (c : Chunk) : Decidable c.wf := by unfold Chunk.wf; infer_instance

/-- Serialization of a list of chunks. -/
def serializeChunks (cs : List Chunk) : List Nat := (cs.map Chunk.serialize).flatten

/-- A structured RIFF/WAVE file: envelope size field, unknown chunks before
`fmt `, the format fields (with the unread byte-rate and block-align fields),
optional extra `fmt ` body, unknown chunks between `fmt ` and `data`, and the
data chunk body.  The data chunk is the final chunk, with declared size equal
to its body's length. -/
structure WavFile where
  riffSize : Nat
  pre : List Chunk
  fmt : FmtInfo
  byteRate : Nat
  blockAlign : Nat
  fmtExtra : List Nat
  mid : List Chunk
  dataBytes : List Nat
deriving DecidableEq, Repr

/-- The 16-byte `fmt ` chunk body prescribed by lines 104–111. -/
def WavFile.fmtBody (w : WavFile) : List Nat :=
  le16bytes w.fmt.audio_format ++ (le16bytes w.fmt.num_channels ++
    (le32bytes w.fmt.sample_rate ++ (le32bytes w.byteRate ++
      (le16bytes w.blockAlign ++ le16bytes w.fmt.bits_per_sample))))

/-- The serialized `fmt ` chunk (declared size `16 + |extra|`). -/
def WavFile.fmtChunkBytes (w : WavFile) : List Nat :=
  fmtTag ++ (le32bytes (16 + w.fmtExtra.length) ++ (w.fmtBody ++ w.fmtExtra))

/-- The serialized `data` chunk. -/
def WavFile.dataChunkBytes (w : WavFile) : List Nat :=
  dataTag ++ (le32bytes w.dataBytes.length ++ w.dataBytes)

/-- The full serialized byte stream of the file. -/
def WavFile.serialize (w : WavFile) : List Nat :=
  riffTag ++ (le32bytes w.riffSize ++ (waveTag ++
    (serializeChunks w.pre ++ (w.fmtChunkBytes ++
      (serializeChunks w.mid ++ w.dataChunkBytes)))))

/-- Well-formedness of the structured file: the unknown chunks before `fmt `
carry neither the `fmt ` nor the `data` tag, those between `fmt ` and `data`
do not carry the `data` tag, and every serialized numeric field round-trips
through its fixed width. -/
def WavFile.wf (w : WavFile) : Prop :=
  (∀ c ∈ w.pre, c.wf ∧ c.tag ≠ fmtTag ∧ c.tag ≠ dataTag) ∧
  (∀ c ∈ w.mid, c.wf ∧ c.tag ≠ dataTag) ∧
  w.fmt.audio_format < 65536 ∧ w.fmt.num_channels < 65536 ∧
  w.fmt.sample_rate < 4294967296 ∧ w.fmt.bits_per_sample < 65536 ∧
  16 + w.fmtExtra.length < 4294967296 ∧ w.dataBytes.length < 4294967296

instance (w : WavFile) : Decidable w.wf := by unfold WavFile.wf; infer_instance

/-- What `parseWav` computes on a well-formed serialized file, as a function
of the format fields and data body alone (`parseWav_serialize` below). -/
def coreResult (f : FmtInfo) (dataB : List Nat) : DecodeResult :=
  if f.audio_format ≠ 1 then .err .unsupportedAudioFormat
  else if f.num_channels ≠ 1 then .err .unsupportedChannels
  else if dataB.length = 0 then .err .noDataChunk
  else decodeData f dataB.length dataB

/-- The minimal 44-byte canonical file: bare envelope, 16-byte `fmt ` chunk
with PCM/mono/16-bit parameters at sample rate `r`, zero-length data chunk. -/
def minimalWav (r : Nat) : WavFile :=
  ⟨36, [], ⟨1, 1, r, 16⟩, 2 * r, 2, [], [], []⟩

/-- The concrete byte sequence of claim C7. -/
def c7bytes : List Nat :=
  [82, 73, 70, 70, 40, 0, 0, 0, 87, 65, 86, 69,
   102, 109, 116, 32, 16, 0, 0, 0, 1, 0, 1, 0, 128, 62, 0, 0, 0, 125, 0, 0, 2, 0, 16, 0,
   100, 97, 116, 97, 4, 0, 0, 0, 0, 128, 0, 128]

/-- The structured form of the C7 file. -/
def c7wav : WavFile := ⟨40, [], ⟨1, 1, 16000, 16⟩, 32000, 2, [], [], [0, 128, 0, 128]⟩

/-- A well-formed unknown chunk (`JUNK`-style). -/
def junkChunk : Chunk := ⟨[74, 85, 78, 75], 3, [9, 9, 9]⟩

/-- A 20-byte file whose single chunk is a zero-length `data` chunk and
nothing else: `"RIFF" + 12u32 + "WAVE" + "data" + 0u32`. -/
def c3bytes : List Nat :=
  [82, 73, 70, 70, 12, 0, 0, 0, 87, 65, 86, 69, 100, 97, 116, 97, 0, 0, 0, 0]

/-- PCM, mono, `bits_per_sample = 0`, with a two-byte data chunk. -/
def bitsZeroWav : WavFile := ⟨38, [], ⟨1, 1, 16000, 0⟩, 0, 0, [], [], [0, 0]⟩

/-- PCM, mono, sample rate 8000 and `bits_per_sample = 8`, with a two-byte
data chunk: both mismatches of claim C5 at once. -/
def rate8bits8Wav : WavFile := ⟨38, [], ⟨1, 1, 8000, 8⟩, 8000, 1, [], [], [0, 0]⟩

/-- PCM, mono, `bits_per_sample = 4`, with a two-byte data chunk. -/
def bits4Wav : WavFile := ⟨38, [], ⟨1, 1, 16000, 4⟩, 8000, 1, [], [], [0, 0]⟩

/-- PCM, mono, `bits_per_sample = 24`, with a three-byte data chunk. -/
def bits24Wav : WavFile := ⟨40, [], ⟨1, 1, 16000, 24⟩, 48000, 3, [], [], [0, 0, 0]⟩

/-- The C7 file at sample rate 8000 instead of 16000. -/
def rate8000Wav : WavFile := ⟨40, [], ⟨1, 1, 8000, 16⟩, 16000, 2, [], [], [0, 128, 0, 128]⟩

/-! ## Generic facts about the scanning loops

The fuel argument of `findFmtAux`/`findDataAux` is irrelevant as long as it is
at least the length of the remaining stream: each loop iteration consumes at
least the 8 header bytes. -/

theorem findFmtAux_congr (f1 : Nat) :
    ∀ (f2 : Nat) (rem : List Nat), rem.length ≤ f1 → rem.length ≤ f2 →
      findFmtAux f1 rem = findFmtAux f2 rem := by
  induction f1 with
  | zero =>
    intro f2 rem h1 _
    have hrem : rem = [] := List.length_eq_zero.mp (Nat.le_zero.mp h1)
    subst hrem
    cases f2 <;> simp [findFmtAux]
  | succ f ih =>
    intro f2 rem h1 h2
    cases f2 with
    | zero =>
      have hrem : rem = [] := List.length_eq_zero.mp (Nat.le_zero.mp h2)
      subst hrem
      simp [findFmtAux]
    | succ g =>
      by_cases h8 : 8 < rem.length
      · by_cases hf : (rem.take 4).map (· % 256) = fmtTag
        · simp [findFmtAux, h8, hf]
        · by_cases hd : (rem.take 4).map (· % 256) = dataTag
          · simp [findFmtAux, h8, hf, hd]
          · simp only [findFmtAux, if_pos h8, if_neg hf, if_neg hd]
            exact ih g _ (by simp only [List.length_drop]; omega)
              (by simp only [List.length_drop]; omega)
      · simp [findFmtAux, h8]

theorem findDataAux_congr (f1 : Nat) :
    ∀ (f2 : Nat) (rem : List Nat), rem.length ≤ f1 → rem.length ≤ f2 →
      findDataAux f1 rem = findDataAux f2 rem := by
  induction f1 with
  | zero =>
    intro f2 rem h1 _
    have hrem : rem = [] := List.length_eq_zero.mp (Nat.le_zero.mp h1)
    subst hrem
    cases f2 <;> simp [findDataAux]
  | succ f ih =>
    intro f2 rem h1 h2
    cases f2 with
    | zero =>
      have hrem : rem = [] := List.length_eq_zero.mp (Nat.le_zero.mp h2)
      subst hrem
      simp [findDataAux]
    | succ g =>
      by_cases h8 : 8 < rem.length
      · by_cases hd : (rem.take 4).map (· % 256) = dataTag
        · simp [findDataAux, h8, hd]
        · simp only [findDataAux, if_pos h8, if_neg hd]
          exact ih g _ (by simp only [List.length_drop]; omega)
            (by simp only [List.length_drop]; omega)
      · simp [findDataAux, h8]

/-- The loop body never runs when at most 8 bytes remain (line 90 / 165). -/
theorem findFmt_small (rem : List Nat) (h : ¬ 8 < rem.length) : findFmt rem = .exhausted := by
  unfold findFmt
  cases hl : rem.length with
  | zero => simp [findFmtAux]
  | succ m => simp [findFmtAux, h]

theorem findData_small (rem : List Nat) (h : ¬ 8 < rem.length) :
    findData rem = .exhausted := by
  unfold findData
  cases hl : rem.length with
  | zero => simp [findDataAux]
  | succ m => simp [findDataAux, h]

/-- One unfolding of the first scanning loop when its guard holds. -/
theorem findFmt_step (rem : List Nat) (h : 8 < rem.length) :
    findFmt rem =
      if (rem.take 4).map (· % 256) = fmtTag then
        if (rem.drop 8).length < 16 then .fault
        else
          .found
            { audio_format := le16 (rem.drop 8) 0
              num_channels := le16 (rem.drop 8) 2
              sample_rate := le32 (rem.drop 8) 4
              bits_per_sample := le16 (rem.drop 8) 14 }
            (((rem.drop 8).drop 16).drop ((le32 rem 4 + 4294967280) % 4294967296))
      else if (rem.take 4).map (· % 256) = dataTag then .dataBefore
      else findFmt (rem.drop (8 + le32 rem 4)) := by
  obtain ⟨m, hm⟩ : ∃ m, rem.length = m + 1 := ⟨rem.length - 1, by omega⟩
  unfold findFmt
  rw [hm]
  simp only [findFmtAux]
  rw [if_pos h]
  by_cases hf : (rem.take 4).map (· % 256) = fmtTag
  · simp [hf]
  · by_cases hd : (rem.take 4).map (· % 256) = dataTag
    · simp [hf, hd]
    · simp only [if_neg hf, if_neg hd]
      exact findFmtAux_congr m _ _ (by simp only [List.length_drop]; omega)
        (by simp only [List.length_drop]; omega)

/-- One unfolding of the second scanning loop when its guard holds. -/
theorem findData_step (rem : List Nat) (h : 8 < rem.length) :
    findData rem =
      if (rem.take 4).map (· % 256) = dataTag then .found (le32 rem 4) (rem.drop 8)
      else findData (rem.drop (8 + le32 rem 4)) := by
  obtain ⟨m, hm⟩ : ∃ m, rem.length = m + 1 := ⟨rem.length - 1, by omega⟩
  unfold findData
  rw [hm]
  simp only [findDataAux]
  rw [if_pos h]
  by_cases hd : (rem.take 4).map (· % 256) = dataTag
  · simp [hd]
  · simp only [if_neg hd]
    exact findDataAux_congr m _ _ (by simp only [List.length_drop]; omega)
      (by simp only [List.length_drop]; omega)

/-! ## Round-trip facts about serialization -/

theorem map_mod_eq_self (l : List Nat) (h : ∀ b ∈ l, b < 256) : l.map (· % 256) = l := by
  induction l with
  | nil => rfl
  | cons a t ih =>
    simp only [List.map_cons]
    rw [Nat.mod_eq_of_lt (h a (List.mem_cons_self a t)),
      ih fun b hb => h b (List.mem_cons_of_mem a hb)]

theorem byteAt_append_right (l r : List Nat) (i : Nat) (h : l.length ≤ i) :
    byteAt (l ++ r) i = byteAt r (i - l.length) := by
  unfold byteAt
  rw [List.getD_append_right l r 0 i h]

theorem le32_after_tag (t : List Nat) (h4 : t.length = 4) (r : List Nat) :
    le32 (t ++ r) 4 = le32 r 0 := by
  unfold le32
  rw [byteAt_append_right t r 4 (by omega), byteAt_append_right t r 5 (by omega),
    byteAt_append_right t r 6 (by omega), byteAt_append_right t r 7 (by omega), h4]

theorem le32_le32bytes (n : Nat) (h : n < 4294967296) (r : List Nat) :
    le32 (le32bytes n ++ r) 0 = n := by
  have e : le32 (le32bytes n ++ r) 0 =
      n % 256 % 256 + 256 * (n / 256 % 256 % 256) + 65536 * (n / 65536 % 256 % 256) +
        16777216 * (n / 16777216 % 256 % 256) := rfl
  rw [e]
  omega

theorem Chunk.serialize_length (c : Chunk) (h4 : c.tag.length = 4) :
    c.serialize.length = 8 + c.body.length := by
  simp only [Chunk.serialize, List.length_append, le32bytes, List.length_cons,
    List.length_nil, h4]
  omega

/-- Skipping one well-formed chunk whose tag is neither `fmt ` nor `data`
(lines 124–128 of the source): the scan continues exactly after it. -/
theorem findFmt_skip (c : Chunk) (hc : c.wf) (hf : c.tag ≠ fmtTag) (hd : c.tag ≠ dataTag)
    (rest : List Nat) : findFmt (c.serialize ++ rest) = findFmt rest := by
  obtain ⟨h4, hlt, hdecl, h32⟩ := hc
  have hlen : (c.serialize ++ rest).length = 8 + (c.body.length + rest.length) := by
    simp only [List.length_append, Chunk.serialize_length c h4]
    omega
  by_cases h8 : 8 < (c.serialize ++ rest).length
  · rw [findFmt_step _ h8]
    have htake : ((c.serialize ++ rest).take 4).map (· % 256) = c.tag := by
      have ht : (c.serialize ++ rest).take 4 = c.tag := by
        rw [Chunk.serialize, List.append_assoc]
        exact List.take_left' h4
      rw [ht]
      exact map_mod_eq_self c.tag hlt
    have hsz : le32 (c.serialize ++ rest) 4 = c.declared := by
      rw [Chunk.serialize, List.append_assoc, List.append_assoc,
        le32_after_tag c.tag h4]
      exact le32_le32bytes c.declared h32 (c.body ++ rest)
    have hdrop : (c.serialize ++ rest).drop (8 + c.declared) = rest :=
      List.drop_left' (by rw [Chunk.serialize_length c h4, hdecl])
    rw [if_neg (by rw [htake]; exact hf), if_neg (by rw [htake]; exact hd), hsz, hdrop]
  · rw [findFmt_small _ h8, findFmt_small rest (by omega)]

theorem findData_skip (c : Chunk) (hc : c.wf) (hd : c.tag ≠ dataTag) (rest : List Nat) :
    findData (c.serialize ++ rest) = findData rest := by
  obtain ⟨h4, hlt, hdecl, h32⟩ := hc
  have hlen : (c.serialize ++ rest).length = 8 + (c.body.length + rest.length) := by
    simp only [List.length_append, Chunk.serialize_length c h4]
    omega
  by_cases h8 : 8 < (c.serialize ++ rest).length
  · rw [findData_step _ h8]
    have htake : ((c.serialize ++ rest).take 4).map (· % 256) = c.tag := by
      have ht : (c.serialize ++ rest).take 4 = c.tag := by
        rw [Chunk.serialize, List.append_assoc]
        exact List.take_left' h4
      rw [ht]
      exact map_mod_eq_self c.tag hlt
    have hsz : le32 (c.serialize ++ rest) 4 = c.declared := by
      rw [Chunk.serialize, List.append_assoc, List.append_assoc,
        le32_after_tag c.tag h4]
      exact le32_le32bytes c.declared h32 (c.body ++ rest)
    have hdrop : (c.serialize ++ rest).drop (8 + c.declared) = rest :=
      List.drop_left' (by rw [Chunk.serialize_length c h4, hdecl])
    rw [if_neg (by rw [htake]; exact hd), hsz, hdrop]
  · rw [findData_small _ h8, findData_small rest (by omega)]

theorem findFmt_skipAll (cs : List Chunk)
    (hcs : ∀ c ∈ cs, c.wf ∧ c.tag ≠ fmtTag ∧ c.tag ≠ dataTag) (rest : List Nat) :
    findFmt (serializeChunks cs ++ rest) = findFmt rest := by
  induction cs with
  | nil => simp [serializeChunks]
  | cons c cs ih =>
    obtain ⟨hc, hf, hd⟩ := hcs c (List.mem_cons_self c cs)
    have e : serializeChunks (c :: cs) ++ rest = c.serialize ++ (serializeChunks cs ++ rest) := by
      simp [serializeChunks]
    rw [e, findFmt_skip c hc hf hd, ih fun x hx => hcs x (List.mem_cons_of_mem c hx)]

theorem findData_skipAll (cs : List Chunk)
    (hcs : ∀ c ∈ cs, c.wf ∧ c.tag ≠ dataTag) (rest : List Nat) :
    findData (serializeChunks cs ++ rest) = findData rest := by
  induction cs with
  | nil => simp [serializeChunks]
  | cons c cs ih =>
    obtain ⟨hc, hd⟩ := hcs c (List.mem_cons_self c cs)
    have e : serializeChunks (c :: cs) ++ rest = c.serialize ++ (serializeChunks cs ++ rest) := by
      simp [serializeChunks]
    rw [e, findData_skip c hc hd, ih fun x hx => hcs x (List.mem_cons_of_mem c hx)]

/-- The serialized `fmt ` chunk is parsed back into exactly the format fields
it was built from (lines 100–119 of the source). -/
theorem findFmt_fmtChunk (w : WavFile) (haf : w.fmt.audio_format < 65536)
    (hch : w.fmt.num_channels < 65536) (hsr : w.fmt.sample_rate < 4294967296)
    (hbp : w.fmt.bits_per_sample < 65536) (hex : 16 + w.fmtExtra.length < 4294967296)
    (rest : List Nat) :
    findFmt (w.fmtChunkBytes ++ rest) = .found w.fmt rest := by
  have hL : (w.fmtChunkBytes ++ rest).length = 24 + (w.fmtExtra.length + rest.length) := by
    simp only [WavFile.fmtChunkBytes, WavFile.fmtBody, fmtTag, le16bytes, le32bytes,
      List.length_append, List.length_cons, List.length_nil]
    omega
  rw [findFmt_step _ (by omega)]
  rw [if_pos (show ((w.fmtChunkBytes ++ rest).take 4).map (· % 256) = fmtTag from rfl)]
  rw [if_neg (show ¬ ((w.fmtChunkBytes ++ rest).drop 8).length < 16 by
    rw [List.length_drop]; omega)]
  have eAF : le16 ((w.fmtChunkBytes ++ rest).drop 8) 0 = w.fmt.audio_format := by
    have e : le16 ((w.fmtChunkBytes ++ rest).drop 8) 0 =
        w.fmt.audio_format % 256 % 256 + 256 * (w.fmt.audio_format / 256 % 256 % 256) := rfl
    rw [e]; omega
  have eCH : le16 ((w.fmtChunkBytes ++ rest).drop 8) 2 = w.fmt.num_channels := by
    have e : le16 ((w.fmtChunkBytes ++ rest).drop 8) 2 =
        w.fmt.num_channels % 256 % 256 + 256 * (w.fmt.num_channels / 256 % 256 % 256) := rfl
    rw [e]; omega
  have eSR : le32 ((w.fmtChunkBytes ++ rest).drop 8) 4 = w.fmt.sample_rate := by
    have e : le32 ((w.fmtChunkBytes ++ rest).drop 8) 4 =
        w.fmt.sample_rate % 256 % 256 + 256 * (w.fmt.sample_rate / 256 % 256 % 256) +
          65536 * (w.fmt.sample_rate / 65536 % 256 % 256) +
          16777216 * (w.fmt.sample_rate / 16777216 % 256 % 256) := rfl
    rw [e]; omega
  have eBP : le16 ((w.fmtChunkBytes ++ rest).drop 8) 14 = w.fmt.bits_per_sample := by
    have e : le16 ((w.fmtChunkBytes ++ rest).drop 8) 14 =
        w.fmt.bits_per_sample % 256 % 256 +
          256 * (w.fmt.bits_per_sample / 256 % 256 % 256) := rfl
    rw [e]; omega
  have eSz : le32 (w.fmtChunkBytes ++ rest) 4 = 16 + w.fmtExtra.length := by
    have e : le32 (w.fmtChunkBytes ++ rest) 4 =
        (16 + w.fmtExtra.length) % 256 % 256 +
          256 * ((16 + w.fmtExtra.length) / 256 % 256 % 256) +
          65536 * ((16 + w.fmtExtra.length) / 65536 % 256 % 256) +
          16777216 * ((16 + w.fmtExtra.length) / 16777216 % 256 % 256) := rfl
    rw [e]; omega
  have eDrop : ((w.fmtChunkBytes ++ rest).drop 8).drop 16 = w.fmtExtra ++ rest := rfl
  have eAmt : (16 + w.fmtExtra.length + 4294967280) % 4294967296 = w.fmtExtra.length := by
    omega
  rw [eAF, eCH, eSR, eBP, eSz, eAmt, eDrop, List.drop_left w.fmtExtra rest]

/-- The serialized final `data` chunk is found exactly when its body is
non-empty; a zero-length final data chunk leaves at most 8 bytes, so the
scanning loop of lines 165–183 never reads its header. -/
theorem findData_dataChunk (w : WavFile) (hdb : w.dataBytes.length < 4294967296) :
    findData w.dataChunkBytes =
      if w.dataBytes.length = 0 then .exhausted
      else .found w.dataBytes.length w.dataBytes := by
  have hL : w.dataChunkBytes.length = 8 + w.dataBytes.length := by
    simp only [WavFile.dataChunkBytes, dataTag, le32bytes, List.length_append,
      List.length_cons, List.length_nil]
    omega
  by_cases hz : w.dataBytes.length = 0
  · rw [if_pos hz]
    exact findData_small _ (by omega)
  · rw [if_neg hz]
    rw [findData_step _ (by omega)]
    rw [if_pos (show (w.dataChunkBytes.take 4).map (· % 256) = dataTag from rfl)]
    have hsz : le32 w.dataChunkBytes 4 = w.dataBytes.length := by
      have e : le32 w.dataChunkBytes 4 =
          w.dataBytes.length % 256 % 256 + 256 * (w.dataBytes.length / 256 % 256 % 256) +
            65536 * (w.dataBytes.length / 65536 % 256 % 256) +
            16777216 * (w.dataBytes.length / 16777216 % 256 % 256) := rfl
      rw [e]; omega
    rw [hsz, show w.dataChunkBytes.drop 8 = w.dataBytes from rfl]

/-- The envelope check of lines 69–81 on a stream with a well-formed
12-byte `RIFF`/size/`WAVE` prologue. -/
theorem parseWav_env (rs : Nat) (B : List Nat) :
    parseWav (riffTag ++ (le32bytes rs ++ (waveTag ++ B))) = scanChunks B := by
  have hL : (riffTag ++ (le32bytes rs ++ (waveTag ++ B))).length = 12 + B.length := by
    simp only [riffTag, waveTag, le32bytes, List.length_append, List.length_cons,
      List.length_nil]
    omega
  have h2 : ((riffTag ++ (le32bytes rs ++ (waveTag ++ B))).take 4).map (· % 256) = riffTag := rfl
  have h3 : (((riffTag ++ (le32bytes rs ++ (waveTag ++ B))).drop 8).take 4).map (· % 256) =
      waveTag := rfl
  unfold parseWav
  rw [if_neg (by omega), if_neg (by rw [h2]; exact fun h => h rfl),
    if_neg (by rw [h3]; exact fun h => h rfl),
    show (riffTag ++ (le32bytes rs ++ (waveTag ++ B))).drop 12 = B from rfl]

/-- Master lemma: on a well-formed serialized file, the decode depends only on
the format fields and the data body, exactly as `coreResult` states.  In
particular a zero-length final data chunk yields the missing-data-chunk error,
because the second scanning loop never reads a chunk header that sits in the
final 8 bytes of the file. -/
theorem parseWav_serialize (w : WavFile) (hw : w.wf) :
    parseWav w.serialize = coreResult w.fmt w.dataBytes := by
  obtain ⟨hpre, hmid, haf, hch, hsr, hbp, hex, hdb⟩ := hw
  rw [WavFile.serialize, parseWav_env]
  unfold scanChunks
  rw [findFmt_skipAll w.pre hpre, findFmt_fmtChunk w haf hch hsr hbp hex]
  show afterFmt w.fmt (serializeChunks w.mid ++ w.dataChunkBytes) =
    coreResult w.fmt w.dataBytes
  unfold afterFmt coreResult
  rw [findData_skipAll w.mid hmid, findData_dataChunk w hdb]
  by_cases h1 : w.fmt.audio_format = 1
  · by_cases h2 : w.fmt.num_channels = 1
    · by_cases hz : w.dataBytes.length = 0
      · simp [h1, h2, hz]
      · simp [h1, h2, hz]
    · simp [h1, h2]
  · simp [h1]

/-! ## Facts about the decoded samples -/

/-- The value of `coreResult` on a PCM, mono, 16-bit file with a non-empty
data body: a successful decode of `length / 2` samples. -/
theorem coreResult_pcm16 (f : FmtInfo) (d : List Nat) (haf : f.audio_format = 1)
    (hch : f.num_channels = 1) (hb : f.bits_per_sample = 16) (hn : 1 ≤ d.length) :
    coreResult f d = .ok (pcm16Samples d (d.length / 2)) (warningsOf f) := by
  unfold coreResult decodeData
  rw [haf, hch, hb]
  rw [if_neg (by norm_num), if_neg (by norm_num), if_neg (by omega),
    if_neg (by norm_num), if_pos rfl, if_neg (by omega)]

/-- The signed little-endian 16-bit read always lies in `[-32768, 32768)`. -/
theorem s16_bounds (l : List Nat) (i : Nat) : -32768 ≤ s16 l i ∧ s16 l i < 32768 := by
  unfold s16 le16 byteAt
  have h0 : l.getD i 0 % 256 < 256 := Nat.mod_lt _ (by norm_num)
  have h1 : l.getD (i + 1) 0 % 256 < 256 := Nat.mod_lt _ (by norm_num)
  split <;> constructor <;> omega

/-- A signed 16-bit value divided by `32768` lies in the half-open unit
interval `[-1, 1)`. -/
theorem sample_unit_range (s : Int) (h1 : -32768 ≤ s) (h2 : s < 32768) :
    -1 ≤ (s : ℚ) / 32768 ∧ (s : ℚ) / 32768 < 1 := by
  have hq1 : (-32768 : ℚ) ≤ (s : ℚ) := by exact_mod_cast h1
  have hq2 : (s : ℚ) < 32768 := by exact_mod_cast h2
  constructor
  · rw [le_div_iff₀ (by norm_num : (0 : ℚ) < 32768)]
    linarith
  · rw [div_lt_one (by norm_num : (0 : ℚ) < 32768)]
    exact hq2

theorem getD_map_range (n i : Nat) (hi : i < n) (f : Nat → ℚ) :
    ((List.range n).map f).getD i 0 = f i := by
  rw [List.getD_eq_getElem?_getD, List.getElem?_map, List.getElem?_range hi]
  rfl

/-! ## The claims -/

/-- C1 (amended): for every well-formed serialized WAV file that is PCM
(`audio_format = 1`), mono, 16-bit, and whose data chunk has a **non-empty**
body of `n` bytes, decode succeeds and returns exactly `n / 2` samples, the
`i`-th equal to the `i`-th little-endian signed 16-bit integer of the data
body divided by `32768`, in file order, each lying in `[-1, 1)`.  The original
claim, stated for every byte size `n`, fails at `n = 0`: with the data chunk
last, its header occupies the final 8 bytes and the scanning loop — which
requires strictly more than 8 remaining bytes — never reads it, so decode
fails with the missing-data-chunk error (`c1_counterexample`). -/
theorem c1_pcm16_decode (w : WavFile) (hw : w.wf)
    (haf : w.fmt.audio_format = 1) (hch : w.fmt.num_channels = 1)
    (hbits : w.fmt.bits_per_sample = 16) (hn : 1 ≤ w.dataBytes.length) :
    ∃ warns,
      parseWav w.serialize = .ok (pcm16Samples w.dataBytes (w.dataBytes.length / 2)) warns ∧
      (pcm16Samples w.dataBytes (w.dataBytes.length / 2)).length = w.dataBytes.length / 2 ∧
      (∀ i, i < w.dataBytes.length / 2 →
        (pcm16Samples w.dataBytes (w.dataBytes.length / 2)).getD i 0 =
          (s16 w.dataBytes (2 * i) : ℚ) / 32768) ∧
      ∀ q ∈ pcm16Samples w.dataBytes (w.dataBytes.length / 2), -1 ≤ q ∧ q < 1 := by
  refine ⟨warningsOf w.fmt, ?_, ?_, ?_, ?_⟩
  · rw [parseWav_serialize w hw, coreResult_pcm16 w.fmt w.dataBytes haf hch hbits hn]
  · simp [pcm16Samples]
  · intro i hi
    exact getD_map_range _ i hi _
  · intro q hq
    obtain ⟨i, _, rfl⟩ := List.mem_map.mp hq
    exact sample_unit_range _ (s16_bounds w.dataBytes (2 * i)).1
      (s16_bounds w.dataBytes (2 * i)).2

/-- C1 counterexample: the minimal valid 44-byte PCM/mono/16-bit file (here at
sample rate 8000) has a data chunk of byte size `n = 0`, yet decode does not
succeed with `0 / 2 = 0` samples — it fails with the missing-data-chunk
error. -/
theorem c1_counterexample :
    parseWav (minimalWav 8000).serialize = .err .noDataChunk := by decide

/-- C1 witness: the amended theorem applied to the concrete C7 file
(4 data bytes, 2 samples). -/
theorem c1_witness :
    ∃ warns,
      parseWav c7wav.serialize =
        .ok (pcm16Samples c7wav.dataBytes (c7wav.dataBytes.length / 2)) warns ∧
      (pcm16Samples c7wav.dataBytes (c7wav.dataBytes.length / 2)).length =
        c7wav.dataBytes.length / 2 ∧
      (∀ i, i < c7wav.dataBytes.length / 2 →
        (pcm16Samples c7wav.dataBytes (c7wav.dataBytes.length / 2)).getD i 0 =
          (s16 c7wav.dataBytes (2 * i) : ℚ) / 32768) ∧
      ∀ q ∈ pcm16Samples c7wav.dataBytes (c7wav.dataBytes.length / 2), -1 ≤ q ∧ q < 1 :=
  c1_pcm16_decode c7wav (by decide) rfl rfl rfl (by decide)

/-- C2 (amended): the minimal valid file — 44-byte canonical header
(RIFF/WAVE envelope, one 16-byte `fmt ` chunk with PCM/mono/16-bit parameters
at any 32-bit sample rate, zero-length data chunk) — terminates without
crashing but fails with the missing-data-chunk error: the data chunk header
occupies the final 8 bytes and the scanning loop requires strictly more than 8
remaining bytes, so it is never read.  No distinct `EmptyResult` condition
exists in the code: `read_audio_file` returns the same empty vector on every
failure, and its caller (`whisper_ffi_transcribe`, lines 244–247) treats any
empty vector as "Failed to read audio file". -/
theorem c2_minimal_file (r : Nat) (hr : r < 4294967296) :
    parseWav (minimalWav r).serialize = .err .noDataChunk := by
  have hw : (minimalWav r).wf := by
    unfold WavFile.wf minimalWav
    exact ⟨by simp, by simp, by norm_num, by norm_num, hr, by norm_num, by norm_num,
      by norm_num⟩
  rw [parseWav_serialize _ hw]
  unfold coreResult
  norm_num [minimalWav]

/-- C2 counterexample: the canonical 16 kHz minimal file yields the
missing-data-chunk parse failure, not a zero-sample success with a distinct
`EmptyResult` condition. -/
theorem c2_counterexample :
    parseWav (minimalWav 16000).serialize = .err .noDataChunk := by decide

/-- C2 witness: the amended theorem at sample rate 22050. -/
theorem c2_witness : parseWav (minimalWav 22050).serialize = .err .noDataChunk :=
  c2_minimal_file 22050 (by norm_num)

/-- C3 (amended): a `data` chunk reached before any `fmt ` chunk is fatal —
decode fails with `DataBeforeFormat` for any preceding well-formed non-`fmt `
non-`data` chunks, any declared size of the data chunk, and any suffix, as
long as at least one byte follows the data chunk's 8-byte header.  The
original claim, stated for every stream whose chunk sequence contains a data
chunk before any fmt chunk, fails when the data chunk header sits in the
final 8 bytes: the scanning loop never reads it and decode reports the
missing-fmt-chunk error instead (`c3_counterexample`). -/
theorem c3_data_before_fmt (pre : List Chunk)
    (hpre : ∀ c ∈ pre, c.wf ∧ c.tag ≠ fmtTag ∧ c.tag ≠ dataTag)
    (rs sz : Nat) (tail : List Nat) (ht : 1 ≤ tail.length) :
    parseWav (riffTag ++ (le32bytes rs ++ (waveTag ++
      (serializeChunks pre ++ (dataTag ++ (le32bytes sz ++ tail)))))) =
      .err .dataBeforeFmt := by
  rw [parseWav_env]
  unfold scanChunks
  rw [findFmt_skipAll pre hpre]
  have h8 : 8 < (dataTag ++ (le32bytes sz ++ tail)).length := by
    simp only [dataTag, le32bytes, List.length_append, List.length_cons, List.length_nil]
    omega
  rw [findFmt_step _ h8]
  have htake : ((dataTag ++ (le32bytes sz ++ tail)).take 4).map (· % 256) = dataTag := rfl
  rw [if_neg (by rw [htake]; decide), if_pos htake]

/-- C3 counterexample: the 20-byte file `"RIFF" + 12u32 + "WAVE" + "data" +
0u32` contains a data chunk and no fmt chunk, yet decode reports the
missing-fmt-chunk error, not `DataBeforeFormat`, because the data chunk's
header occupies the final 8 bytes and is never scanned. -/
theorem c3_counterexample :
    parseWav c3bytes = .err .noFmtChunk ∧ parseWav c3bytes ≠ .err .dataBeforeFmt := by
  decide

/-- C3 witness: one junk chunk before a data chunk with an arbitrary
(mismatched) declared size 99 followed by one byte. -/
theorem c3_witness :
    parseWav (riffTag ++ (le32bytes 0 ++ (waveTag ++
      (serializeChunks [junkChunk] ++ (dataTag ++ (le32bytes 99 ++ [0])))))) =
      .err .dataBeforeFmt :=
  c3_data_before_fmt [junkChunk] (by decide) 0 99 [0] (by decide)

/-- C4 (amended): on a well-formed PCM mono file with a non-empty data body,
a `bits_per_sample` other than 16 whose byte width `bits_per_sample / 8` is
non-zero (i.e. `bits_per_sample ≥ 8`, covering 8 and 24) fails with
`UnsupportedBitDepth` and returns no samples.  The original claim also covered
0 and all values below 8, but for those the unguarded sample-count division
`data_size / (bits_per_sample / 8)` at line 191 divides by zero before the
`bits_per_sample == 16` check is reached (`c4_counterexample`). -/
theorem c4_bit_depth_rejected (w : WavFile) (hw : w.wf)
    (haf : w.fmt.audio_format = 1) (hch : w.fmt.num_channels = 1)
    (hb8 : 8 ≤ w.fmt.bits_per_sample) (hb16 : w.fmt.bits_per_sample ≠ 16)
    (hn : 1 ≤ w.dataBytes.length) :
    parseWav w.serialize = .err .unsupportedBitDepth := by
  rw [parseWav_serialize w hw]
  unfold coreResult decodeData
  rw [haf, hch]
  rw [if_neg (by norm_num), if_neg (by norm_num), if_neg (by omega),
    if_neg (by omega), if_neg hb16]

/-- C4 counterexample: a PCM mono file declaring `bits_per_sample = 0` with a
two-byte data chunk reaches the division by zero of line 191, not the
`UnsupportedBitDepth` rejection. -/
theorem c4_counterexample :
    parseWav bitsZeroWav.serialize = .crash .divByZero ∧
      parseWav bitsZeroWav.serialize ≠ .err .unsupportedBitDepth := by
  decide

/-- C4 witness: the amended theorem at `bits_per_sample = 24`. -/
theorem c4_witness : parseWav bits24Wav.serialize = .err .unsupportedBitDepth :=
  c4_bit_depth_rejected bits24Wav (by decide) rfl rfl (by decide) (by decide) (by decide)

/-- C5 (amended): for PCM mono input, a `sample_rate` other than 16000 alone
is non-fatal — with `bits_per_sample = 16` decode proceeds and returns the
full sample sequence with the sample-rate mismatch attached as a warning.
The original claim also made `bits_per_sample ≠ 16` non-fatal, but a
bit-depth mismatch is fatal: after the warning print of line 158, decode
still fails at line 205 with `UnsupportedBitDepth` (or hits the division by
zero of line 191 when `bits_per_sample < 8`); see `c5_counterexample`. -/
theorem c5_sample_rate_nonfatal (w : WavFile) (hw : w.wf)
    (haf : w.fmt.audio_format = 1) (hch : w.fmt.num_channels = 1)
    (hbits : w.fmt.bits_per_sample = 16) (hr : w.fmt.sample_rate ≠ 16000)
    (hn : 1 ≤ w.dataBytes.length) :
    parseWav w.serialize =
      .ok (pcm16Samples w.dataBytes (w.dataBytes.length / 2))
        [Warning.sampleRateMismatch] := by
  rw [parseWav_serialize w hw, coreResult_pcm16 w.fmt w.dataBytes haf hch hbits hn]
  unfold warningsOf
  rw [if_pos hr, if_neg (by rw [hbits]; exact fun h => h rfl)]
  rfl

/-- C5 counterexample: a PCM mono file with both mismatches of the claim
(sample rate 8000 and `bits_per_sample = 8`) does not decode successfully
with warnings — it fails with `UnsupportedBitDepth`. -/
theorem c5_counterexample :
    parseWav rate8bits8Wav.serialize = .err .unsupportedBitDepth := by decide

/-- C5 witness: the amended theorem on the C7 file at sample rate 8000. -/
theorem c5_witness :
    parseWav rate8000Wav.serialize =
      .ok (pcm16Samples rate8000Wav.dataBytes (rate8000Wav.dataBytes.length / 2))
        [Warning.sampleRateMismatch] :=
  c5_sample_rate_nonfatal rate8000Wav (by decide) rfl rfl rfl (by decide) (by decide)

/-- C6: inserting a well-formed unknown chunk (tag neither `fmt ` nor `data`,
declared size equal to its body length, so the skip stays within stream
bounds) anywhere between the RIFF/WAVE envelope and the `fmt ` chunk, or
anywhere between the `fmt ` chunk and the `data` chunk, of a successfully
decodable file leaves the decode result — samples and warnings — unchanged. -/
theorem c6_unknown_chunk_skip (w : WavFile) (u : Chunk)
    (pre1 pre2 mid1 mid2 : List Chunk) (s : List ℚ) (ws : List Warning)
    (hw : w.wf) (hu : u.wf) (huf : u.tag ≠ fmtTag) (hud : u.tag ≠ dataTag)
    (hpre : w.pre = pre1 ++ pre2) (hmid : w.mid = mid1 ++ mid2)
    (hok : parseWav w.serialize = .ok s ws) :
    parseWav ({ w with pre := pre1 ++ u :: pre2 } : WavFile).serialize = .ok s ws ∧
    parseWav ({ w with mid := mid1 ++ u :: mid2 } : WavFile).serialize = .ok s ws := by
  have hw1 : ({ w with pre := pre1 ++ u :: pre2 } : WavFile).wf := by
    unfold WavFile.wf
    refine ⟨?_, hw.2⟩
    intro c hc
    rcases List.mem_append.mp hc with h | h
    · exact hw.1 c (by rw [hpre]; exact List.mem_append.mpr (Or.inl h))
    · rcases List.mem_cons.mp h with h' | h'
      · subst h'
        exact ⟨hu, huf, hud⟩
      · exact hw.1 c (by rw [hpre]; exact List.mem_append.mpr (Or.inr h'))
  have hw2 : ({ w with mid := mid1 ++ u :: mid2 } : WavFile).wf := by
    unfold WavFile.wf
    refine ⟨hw.1, ?_, hw.2.2⟩
    intro c hc
    rcases List.mem_append.mp hc with h | h
    · exact hw.2.1 c (by rw [hmid]; exact List.mem_append.mpr (Or.inl h))
    · rcases List.mem_cons.mp h with h' | h'
      · subst h'
        exact ⟨hu, hud⟩
      · exact hw.2.1 c (by rw [hmid]; exact List.mem_append.mpr (Or.inr h'))
  have key : coreResult w.fmt w.dataBytes = .ok s ws := by
    rw [← parseWav_serialize w hw]
    exact hok
  exact ⟨by rw [parseWav_serialize _ hw1]; exact key,
    by rw [parseWav_serialize _ hw2]; exact key⟩

/-- C6 witness: inserting a junk chunk before `fmt `, and between `fmt ` and
`data`, of the C7 file leaves the decoded samples unchanged. -/
theorem c6_witness :
    parseWav ({ c7wav with pre := [junkChunk] } : WavFile).serialize =
        .ok (pcm16Samples [0, 128, 0, 128] 2) [] ∧
    parseWav ({ c7wav with mid := [junkChunk] } : WavFile).serialize =
        .ok (pcm16Samples [0, 128, 0, 128] 2) [] :=
  c6_unknown_chunk_skip c7wav junkChunk [] [] [] [] (pcm16Samples [0, 128, 0, 128] 2) []
    (by decide) (by decide) (by decide) (by decide) rfl rfl rfl

/-- C7: on the concrete byte sequence `"RIFF" + 40u32 + "WAVE" + "fmt " +
16u32 + [1u16, 1u16, 16000u32, 32000u32, 2u16, 16u16] + "data" + 4u32 +
[0x00, 0x80, 0x00, 0x80]`, decode succeeds with exactly two samples, each
equal to `-32768 / 32768 = -1`, and no warnings. -/
theorem c7_concrete_decode :
    parseWav c7bytes = .ok [(-32768 : ℚ) / 32768, (-32768 : ℚ) / 32768] [] := by
  have h : parseWav c7bytes = .ok (pcm16Samples [0, 128, 0, 128] 2) [] := rfl
  have e : pcm16Samples [0, 128, 0, 128] 2 =
      [(s16 [0, 128, 0, 128] 0 : ℚ) / 32768, (s16 [0, 128, 0, 128] 2 : ℚ) / 32768] := rfl
  have h0 : s16 [0, 128, 0, 128] 0 = -32768 := by decide
  have h2 : s16 [0, 128, 0, 128] 2 = -32768 := by decide
  rw [h, e, h0, h2]
  norm_num

/-- C8: any stream of actual bytes whose first 12 bytes are not the literal
`"RIFF"` tag at offset 0 followed by the literal `"WAVE"` tag at offset 8
fails with the container error of lines 73–81 (one of the two tag-mismatch
sites), before any chunk scanning. -/
theorem c8_invalid_container (bytes : List Nat) (hlen : 12 ≤ bytes.length)
    (hbytes : ∀ b ∈ bytes, b < 256)
    (hmis : ¬(bytes.take 4 = riffTag ∧ (bytes.drop 8).take 4 = waveTag)) :
    isInvalidContainer (parseWav bytes) := by
  have hm4 : (bytes.take 4).map (· % 256) = bytes.take 4 :=
    map_mod_eq_self _ fun b hb => hbytes b (List.take_subset 4 bytes hb)
  have hm8 : ((bytes.drop 8).take 4).map (· % 256) = (bytes.drop 8).take 4 :=
    map_mod_eq_self _ fun b hb =>
      hbytes b (List.drop_subset 8 bytes (List.take_subset 4 (bytes.drop 8) hb))
  unfold isInvalidContainer parseWav
  rw [if_neg (by omega)]
  by_cases h1 : bytes.take 4 = riffTag
  · right
    have h2 : (bytes.drop 8).take 4 ≠ waveTag := fun h => hmis ⟨h1, h⟩
    rw [if_neg (by rw [hm4, h1]; exact fun h => h rfl), if_pos (by rw [hm8]; exact h2)]
  · left
    rw [if_pos (by rw [hm4]; exact h1)]

/-- C8 witness: twelve zero bytes mismatch both tags. -/
theorem c8_witness :
    isInvalidContainer (parseWav [0, 0, 0, 0, 0, 0, 0, 0, 0, 0, 0, 0]) :=
  c8_invalid_container [0, 0, 0, 0, 0, 0, 0, 0, 0, 0, 0, 0] (by decide) (by decide)
    (by decide)

/-- C9: whenever the file name's extension — the substring after the last
`'.'`, lowercased, empty when there is no dot — is not exactly `"wav"`,
`read_audio_file` rejects the input with the unsupported-format error of
lines 64–67 for **every** byte content, including bytes that form a fully
valid PCM mono 16-bit WAV file; acceptance therefore depends on the file
name, not only on the bytes. -/
theorem c9_extension_gate (filename : String) (bytes : List Nat)
    (h : get_file_extension filename ≠ "wav") :
    read_audio_file filename bytes = .err .unsupportedExtension := by
  unfold read_audio_file
  rw [if_pos h]

/-- C9 witness: the valid C7 bytes under an `.mp3` name are rejected before
any content is examined (the same bytes decode successfully by
`c7_concrete_decode`). -/
theorem c9_witness :
    read_audio_file "recording.mp3" c7bytes = .err .unsupportedExtension :=
  c9_extension_gate "recording.mp3" c7bytes (by decide)

/-- C10: when the first `fmt ` chunk passes the codec (`audio_format = 1`)
and channel (`num_channels = 1`) checks but declares `bits_per_sample < 8`,
the divisor `bits_per_sample / 8` of the sample-count division at line 191 is
zero; the division is evaluated before the `bits_per_sample == 16` check, so
decode hits the division by zero and never reaches the guarded
unsupported-bit-depth rejection. -/
theorem c10_division_by_zero (w : WavFile) (hw : w.wf)
    (haf : w.fmt.audio_format = 1) (hch : w.fmt.num_channels = 1)
    (hb : w.fmt.bits_per_sample < 8) (hn : 1 ≤ w.dataBytes.length) :
    parseWav w.serialize = .crash .divByZero ∧
      parseWav w.serialize ≠ .err .unsupportedBitDepth := by
  have key : parseWav w.serialize = .crash .divByZero := by
    rw [parseWav_serialize w hw]
    unfold coreResult decodeData
    rw [haf, hch]
    rw [if_neg (by norm_num), if_neg (by norm_num), if_neg (by omega),
      if_pos (by omega)]
  exact ⟨key, by rw [key]; decide⟩

/-- C10 witness: `bits_per_sample = 4` with a two-byte data chunk. -/
theorem c10_witness :
    parseWav bits4Wav.serialize = .crash .divByZero ∧
      parseWav bits4Wav.serialize ≠ .err .unsupportedBitDepth :=
  c10_division_by_zero bits4Wav (by decide) rfl rfl (by decide) (by decide)

end VoiceBridge
